import Mathlib

/-!
Verification of the batch download orchestrator of the `musicplayer`
repository (`src-tauri/src/services/download.rs`, together with the
validation helpers in `src-tauri/src/utils/`).

The Rust code is shallowly embedded: external effects are made explicit
parameters.  The outcome of one spawned `spotdl` process is a `ProcResult`
(the value of `timeout(cmd.output()).await`); the filesystem is an oracle
`pathExists : String → Bool`; the tokio `JoinSet`-style completion order of
`FuturesUnordered` is an arbitrary scheduler `pick : Nat → Nat`; events
emitted through the tauri `AppHandle` are collected into a trace.
Rust string primitives (`starts_with`, `contains`, `lines`, `split`) are
embedded as character-list functions with the same semantics.
-/

namespace MusicPlayer

/-! ## Rust string primitives -/

/-- `charsHavePfx pat l` decides whether the character list `pat` is an
initial run of `l` (the semantics of Rust `str::starts_with`). -/
def charsHavePfx : List Char → List Char → Bool
  | [], _ => true
  | _ :: _, [] => false
  | c :: cs, d :: ds => c == d && charsHavePfx cs ds

/-- `charsContain pat l` decides whether `pat` occurs contiguously anywhere
in `l` (the semantics of Rust `str::contains` for string patterns). -/
def charsContain (pat : List Char) : List Char → Bool
  | [] => charsHavePfx pat []
  | d :: ds => charsHavePfx pat (d :: ds) || charsContain pat ds

/-- Rust `str::starts_with`. -/
def rust_starts_with (s pat : String) : Bool :=
  charsHavePfx pat.data s.data

/-- Rust `str::contains` for a string pattern. -/
def rust_contains (s pat : String) : Bool :=
  charsContain pat.data s.data

/-- Split a character list on a separator character; always yields at least
one (possibly empty) part, like Rust `str::split`. -/
def charSplit (sep : Char) : List Char → List (List Char)
  | [] => [[]]
  | c :: cs =>
      let r := charSplit sep cs
      if c == sep then [] :: r else (c :: r.headD []) :: r.tail

/-- Rust `str::lines`: split on newline, drop a final empty piece produced by
a trailing newline, strip one trailing carriage return per line; the empty
string has no lines. -/
def rust_lines (s : String) : List String :=
  if s.data.isEmpty then []
  else
    let parts := charSplit '\n' s.data
    let parts := if parts.getLast? == some [] then parts.dropLast else parts
    parts.map (fun l => String.mk (if l.getLast? == some '\r' then l.dropLast else l))

/-- Rust `chars().take(n).collect::<String>()`. -/
def take_chars (n : Nat) (s : String) : String :=
  String.mk (s.data.take n)

/-- Rust `str::trim`: strip whitespace from both ends. -/
def rust_trim (s : String) : String :=
  String.mk (((s.data.dropWhile Char.isWhitespace).reverse.dropWhile Char.isWhitespace).reverse)

/-! ## Error types (`src-tauri/src/errors/mod.rs`) -/

/-- `FileError` from `errors/mod.rs`. -/
inductive FileError where
  | notFound (p : String)
  | pathTraversal (p : String)
  | invalidPath (p : String)
  | notDirectory (p : String)
  | notFile (p : String)
  | unsupportedFormat (p : String)
  | metadataRead (p : String)
  | canonicalize (p : String)
  | scanLimitExceeded (n : Nat)
  | scanDepthExceeded (n : Nat)
deriving DecidableEq

/-- `DownloadError` from `errors/mod.rs`. -/
inductive DownloadError where
  | spotdlNotInstalled
  | invalidUrl (u : String)
  | invalidFormat (m : String)
  | timeout (secs : Nat)
  | failed (m : String)
  | youTubeError
  | tooManySongs (n : Nat)
  | outputDirNotFound (p : String)
deriving DecidableEq

/-- `AppError` from `errors/mod.rs` (the Spotify and IO payloads are opaque
strings here; the download core never constructs them). -/
inductive AppError where
  | file (e : FileError)
  | spotify (m : String)
  | download (e : DownloadError)
  | validation (m : String)
  | concurrency (m : String)
  | ioError (m : String)
  | unknown (m : String)
deriving DecidableEq

/-! ## Event payloads (`services/download.rs`) -/

/-- `DownloadProgress` event payload. -/
structure DownloadProgress where
  song : String
  index : Nat
  total : Nat
  status : String
  url : String
deriving DecidableEq

/-- One event emitted through the tauri `AppHandle`: `download-progress`,
`download-segment-finished` (`DownloadSegmentFinished` payload) or
`download-finished` (`DownloadFinished` payload). -/
inductive Event where
  | progress (p : DownloadProgress)
  | segmentFinished (segment : Nat) (message : String)
  | downloadFinished (message : String) (total_downloaded total_failed : Nat)
deriving DecidableEq

/-- Recognizer for `download-progress` events. -/
def Event.isProgress : Event → Bool
  | .progress _ => true
  | _ => false

/-- Recognizer for `download-segment-finished` events. -/
def Event.isSegmentFinished : Event → Bool
  | .segmentFinished _ _ => true
  | _ => false

/-- Recognizer for `download-finished` events. -/
def Event.isDownloadFinished : Event → Bool
  | .downloadFinished _ _ _ => true
  | _ => false

/-! ## External process outcomes -/

/-- The value of `timeout(dur, cmd.output()).await` for one external spotdl
process: the timer elapsed, the spawn/IO failed, or the process exited with
a success flag (`status.success()`) and captured stdout/stderr. -/
inductive ProcResult where
  | timeout
  | ioError (msg : String)
  | exited (success : Bool) (stdout stderr : String)
deriving DecidableEq

/-- What one `tokio::spawn`ed batch task experiences: either the task itself
crashed (a `JoinError` when awaited) or it ran its process to a
`ProcResult`. -/
inductive TaskOutcome where
  | crashed
  | proc (r : ProcResult)
deriving DecidableEq

deriving instance DecidableEq for Except

/-- The awaited value of a spawned task handle:
`Result<Result<(), AppError>, JoinError>`. -/
inductive TaskJoin where
  | joined (r : Except AppError Unit)
  | crashed
deriving DecidableEq

/-! ## Constants (`services/download.rs`) -/

def MIN_DELAY_SECS : Nat := 2
def MAX_DELAY_SECS : Nat := 10
def SPOTDL_TIMEOUT_SECS : Nat := 300
def MAX_SONGS_PER_BATCH : Nat := 100
def MAX_CONCURRENT_DOWNLOADS : Nat := 3

/-! ## Validation layer (`utils/validation.rs`, `utils/path.rs`) -/

/-- `validate_spotify_url` from `utils/validation.rs`. -/
def validate_spotify_url (url : String) : Except AppError Unit :=
  if rust_starts_with url "https://open.spotify.com/track/" then .ok ()
  else .error (.download (.invalidUrl url))

/-- `validate_download_format` from `utils/validation.rs`. -/
def validate_download_format (format : String) : Except AppError Unit :=
  let valid_formats := ["mp3", "flac", "ogg", "m4a", "opus"]
  if valid_formats.contains format then .ok ()
  else .error (.download (.invalidFormat ("Use one of: " ++ String.intercalate ", " valid_formats)))

/-- Modelled from the spec: `validate_batch_size` is imported by the
download service from `crate::utils` but its definition is absent from the
sources under `src/`.  Spec rule (section 4.1 rule 2 and the error taxonomy):
`len(identifiers) ≤ MAX_BATCH_SIZE`, otherwise a `BatchTooLarge`
(`TooManySongs`) error. -/
def validate_batch_size (count max_size : Nat) : Except AppError Unit :=
  if count ≤ max_size then .ok () else .error (.download (.tooManySongs max_size))

/-- `extract_song_id` from `utils/validation.rs`:
`url.split('/').last().and_then(|s| s.split('?').next()).unwrap_or("unknown")`. -/
def extract_song_id (url : String) : String :=
  match (charSplit '/' url.data).getLast? with
  | some seg =>
      match charSplit '?' seg with
      | first :: _ => String.mk first
      | [] => "unknown"
  | none => "unknown"

/-- Rust `Path::parent` on a Unix-style path string: drop the final
component; `none` for the root or the empty path. -/
def rust_path_parent (p : String) : Option String :=
  let q := (p.data.reverse.dropWhile (fun c => c == '/')).reverse
  if q.isEmpty then none
  else
    let r := ((q.reverse.dropWhile (fun c => c != '/')).dropWhile (fun c => c == '/')).reverse
    if r.isEmpty then
      if p.data.headD ' ' == '/' then some "/" else some ""
    else some (String.mk r)

/-- `validate_output_path` from `utils/path.rs`, with the filesystem
abstracted as the oracle `pathExists`. -/
def validate_output_path (pathExists : String → Bool) (path : String) : Except AppError String :=
  if rust_contains path ".." then .error (.file (.pathTraversal path))
  else
    match rust_path_parent path with
    | some parent =>
        if pathExists parent then .ok path
        else .error (.file (.notFound ("Output directory: " ++ parent)))
    | none => .ok path

/-- The `if let Some(ref dir) = output_dir { validate_output_path(dir)?; }`
step shared by both download entry points. -/
def validate_output_dir (pathExists : String → Bool) (output_dir : Option String) :
    Except AppError Unit :=
  match output_dir with
  | some dir => (validate_output_path pathExists dir).map (fun _ => ())
  | none => .ok ()

/-- Fold of `validate_spotify_url` over the URL list
(`for url in &urls { validate_spotify_url(url)?; }`). -/
def validate_all_urls : List String → Except AppError Unit
  | [] => .ok ()
  | u :: us =>
      match validate_spotify_url u with
      | .error e => .error e
      | .ok _ => validate_all_urls us

/-! ## Tool probe, command builder, single-track executor -/

/-- `DownloadService::check_installed`, with the `spotdl --version` probe
process abstracted as a `ProcResult`. -/
def check_installed (probe : ProcResult) : Except AppError String :=
  match probe with
  | .exited true stdout _ => .ok (rust_trim stdout)
  | .exited false _ _ => .error (.download .spotdlNotInstalled)
  | .ioError _ => .error (.download .spotdlNotInstalled)
  | .timeout => .error (.download (.timeout 5))

/-- `DownloadService::build_output_path`. -/
def build_output_path (output_template : String) (output_dir : Option String) : Option String :=
  match output_dir, output_template.isEmpty with
  | some dir, false => some (dir ++ "/" ++ output_template)
  | some dir, true => some dir
  | none, false => some output_template
  | none, true => none

/-- `DownloadService::build_spotdl_command`, as the argument list handed to
the `spotdl` executable. -/
def build_spotdl_command (url format : String) (output_path : Option String) : List String :=
  ["download", url]
    ++ (match output_path with
        | some path => ["--output", path]
        | none => [])
    ++ ["--format", format, "--audio", "youtube-music", "youtube", "--print-errors"]

/-- `DownloadService::process_download_output`: classify one finished
process into a status message (or a `YouTubeError`). -/
def process_download_output (result : ProcResult) (song_name : String) : Except AppError String :=
  match result with
  | .exited true stdout _ =>
      if rust_contains stdout "AudioProviderError" || rust_contains stdout "YT-DLP download error" then
        .error (.download .youTubeError)
      else
        .ok "✅ Descargada"
  | .exited false _ stderr =>
      let error_msg := take_chars 100 ((rust_lines stderr).headD "Error desconocido")
      .ok ("❌ " ++ error_msg)
  | .ioError e => .ok ("⚠️ Error: " ++ e)
  | .timeout => .ok "⏱️ Timeout (>5min)"

/-- `DownloadService::download_single_track_with_progress` (the body of one
spawned batch task).  The external process run by the command built from
`url`, `output_template`, `format` and `output_dir` is abstracted by
`result`; the returned list is the trace of events emitted through the
`AppHandle`. -/
def download_single_track_with_progress (url output_template format : String)
    (output_dir : Option String) (index total : Nat) (result : ProcResult) :
    Except AppError Unit × List Event :=
  let song_name := extract_song_id url
  match process_download_output result song_name with
  | .error e => (.error e, [])
  | .ok status_msg =>
      (.ok (),
       [Event.progress
          { song := song_name, index := index, total := total, status := status_msg, url := url }])

/-- `DownloadService::handle_download_result` (single-track path). -/
def handle_download_result (result : ProcResult) (song_name url : String) :
    Except AppError String × List Event :=
  match process_download_output result song_name with
  | .ok status =>
      let ev := Event.progress
        { song := song_name, index := 1, total := 1, status := status, url := url }
      if rust_starts_with status "✅" then
        (.ok ("✅ " ++ song_name ++ " descargada correctamente"), [ev])
      else
        (.error (.download (.failed status)), [ev])
  | .error e =>
      (.error e,
       [Event.progress
          { song := song_name, index := 1, total := 1, status := "⚠️ Error de YouTube", url := url }])

/-- `DownloadService::download_single_track`. -/
def download_single_track (url output_template format : String) (output_dir : Option String)
    (pathExists : String → Bool) (result : ProcResult) :
    Except AppError String × List Event :=
  match validate_spotify_url url with
  | .error e => (.error e, [])
  | .ok _ =>
      match validate_download_format format with
      | .error e => (.error e, [])
      | .ok _ =>
          match validate_output_dir pathExists output_dir with
          | .error e => (.error e, [])
          | .ok _ =>
              let song_name := extract_song_id url
              handle_download_result result song_name url

/-! ## Segment executor -/

/-- `DownloadService::count_download_result`. -/
def count_download_result (result : TaskJoin) (downloaded failed : Nat) : Nat × Nat :=
  match result with
  | .joined (.ok _) => (downloaded + 1, failed)
  | .joined (.error _) => (downloaded, failed + 1)
  | .crashed => (downloaded, failed + 1)

/-- Run one spawned batch task: a crash yields a `JoinError`, otherwise the
task body `download_single_track_with_progress` runs to completion. -/
def runBatchTask (url output_template format : String) (output_dir : Option String)
    (index total : Nat) (oc : TaskOutcome) : TaskJoin × List Event :=
  match oc with
  | .crashed => (.crashed, [])
  | .proc r =>
      let p := download_single_track_with_progress url output_template format output_dir index total r
      (.joined p.1, p.2)

/-- State of the segment executor loop: the `FuturesUnordered` of in-flight
tasks, the two counters, the emitted-event trace, the number of completed
awaits (used to drive the scheduler), and the high-water mark of the
in-flight count (ghost instrumentation for the concurrency bound). -/
structure SegState where
  inFlight : List (TaskJoin × List Event)
  downloaded : Nat
  failed : Nat
  events : List Event
  awaits : Nat
  maxSeen : Nat

/-- Spawn one task into the `FuturesUnordered` (`download_tasks.push`). -/
def spawnTask (t : TaskJoin × List Event) (s : SegState) : SegState :=
  let fl := s.inFlight ++ [t]
  { s with inFlight := fl, maxSeen := max s.maxSeen fl.length }

/-- `download_tasks.next().await` followed by `count_download_result`: the
scheduler `pick` chooses which in-flight task completes first; its events
become observable and it is folded into the counters. -/
def reapOne (pick : Nat → Nat) (s : SegState) : SegState :=
  if s.inFlight.isEmpty then s
  else
    let i := pick s.awaits % s.inFlight.length
    let t := s.inFlight.getD i (TaskJoin.crashed, [])
    let c := count_download_result t.1 s.downloaded s.failed
    { inFlight := s.inFlight.eraseIdx i
      downloaded := c.1
      failed := c.2
      events := s.events ++ t.2
      awaits := s.awaits + 1
      maxSeen := s.maxSeen }

/-- The spawn loop of `process_download_segment`: push each task, and once
`MAX_CONCURRENT_DOWNLOADS` tasks are in flight await one completion before
the next spawn. -/
def segLoop (pick : Nat → Nat) : List (TaskJoin × List Event) → SegState → SegState
  | [], s => s
  | t :: ts, s =>
      let s1 := spawnTask t s
      let s2 := if MAX_CONCURRENT_DOWNLOADS ≤ s1.inFlight.length then reapOne pick s1 else s1
      segLoop pick ts s2

/-- The drain loop of `process_download_segment`
(`while let Some(result) = download_tasks.next().await`), run with enough
fuel to empty the in-flight collection. -/
def drainN (pick : Nat → Nat) : Nat → SegState → SegState
  | 0, s => s
  | n + 1, s => if s.inFlight.isEmpty then s else drainN pick n (reapOne pick s)

/-- The per-task bodies of one segment, in spawn order
(`for (idx_in_chunk, url) in chunk.iter().enumerate()` with
`global_idx = segment_idx * segment_size + idx_in_chunk + 1`). -/
def segTasks (segment_idx segment_size total : Nat) (output_template format : String)
    (output_dir : Option String) (outcomes : Nat → TaskOutcome) :
    Nat → List String → List (TaskJoin × List Event)
  | _, [] => []
  | j, url :: rest =>
      let global_idx := segment_idx * segment_size + j + 1
      runBatchTask url output_template format output_dir global_idx total (outcomes global_idx)
        :: segTasks segment_idx segment_size total output_template format output_dir outcomes
            (j + 1) rest

/-- `DownloadService::process_download_segment`. -/
def process_download_segment (chunk : List String) (segment_idx segment_size total : Nat)
    (output_template format : String) (output_dir : Option String)
    (outcomes : Nat → TaskOutcome) (pick : Nat → Nat) : SegState :=
  let tasks := segTasks segment_idx segment_size total output_template format output_dir outcomes 0 chunk
  let s := segLoop pick tasks
    { inFlight := [], downloaded := 0, failed := 0, events := [], awaits := 0, maxSeen := 0 }
  drainN pick s.inFlight.length s

/-! ## Job orchestrator -/

/-- Structural worker for `listChunks`: the fuel bounds the number of
chunks; `listChunks` passes the list length, which suffices for every
positive chunk size. -/
def chunksGo : Nat → Nat → List String → List (List String)
  | _, _, [] => []
  | _, 0, _ :: _ => []
  | 0, _ + 1, _ :: _ => []
  | n + 1, fuel + 1, a :: l =>
      ((a :: l).take (n + 1)) :: chunksGo (n + 1) fuel ((a :: l).drop (n + 1))

/-- Rust `slice::chunks`: contiguous chunks of length `n` (the last may be
shorter).  A chunk size of `0` never occurs (`slice::chunks` panics on it;
the orchestrator clamps the size to at least 1). -/
def listChunks (n : Nat) (l : List String) : List (List String) :=
  chunksGo n l.length l

/-- Accumulated observable outcome of a batch job: the totals reported in
the final `download-finished` event, the full event trace, the number of
inter-segment sleeps, the clamped sleep duration, and the high-water mark
of concurrently in-flight tasks. -/
structure JobAcc where
  total_downloaded : Nat
  total_failed : Nat
  events : List Event
  delays : Nat
  delay_secs : Nat
  maxInFlight : Nat
deriving DecidableEq

/-- The per-segment body of the orchestrator loop: run the segment,
accumulate its counters, emit `download-segment-finished`, and sleep unless
this is the last segment. -/
def runSegments (total_segments segment_size total : Nat) (output_template format : String)
    (output_dir : Option String) (outcomes : Nat → TaskOutcome) (pick : Nat → Nat) :
    Nat → List (List String) → JobAcc → JobAcc
  | _, [], acc => acc
  | segment_idx, chunk :: rest, acc =>
      let seg := process_download_segment chunk segment_idx segment_size total
          output_template format output_dir outcomes pick
      runSegments total_segments segment_size total output_template format output_dir outcomes pick
        (segment_idx + 1) rest
        { total_downloaded := acc.total_downloaded + seg.downloaded
          total_failed := acc.total_failed + seg.failed
          events := acc.events ++ seg.events
            ++ [Event.segmentFinished (segment_idx + 1)
                  ("✅ Segmento " ++ toString (segment_idx + 1) ++ " completado")]
          delays := acc.delays + (if segment_idx < total_segments - 1 then 1 else 0)
          delay_secs := acc.delay_secs
          maxInFlight := max acc.maxInFlight seg.maxSeen }

/-- The post-pre-flight body of `download_tracks_segmented`: clamp the
segment size and delay, split the URLs into segments, run them in order and
emit the final `download-finished` event. -/
def run_job (urls : List String) (segment_size delay : Nat)
    (output_template format : String) (output_dir : Option String)
    (outcomes : Nat → TaskOutcome) (pick : Nat → Nat) : JobAcc :=
  let final_segment_size := min (max segment_size 1) 50
  let final_delay := min (max delay MIN_DELAY_SECS) MAX_DELAY_SECS
  let total := urls.length
  let chunks := listChunks final_segment_size urls
  let acc := runSegments chunks.length final_segment_size total
      output_template format output_dir outcomes pick 0 chunks
      { total_downloaded := 0, total_failed := 0, events := []
        delays := 0, delay_secs := final_delay, maxInFlight := 0 }
  { acc with
    events := acc.events
      ++ [Event.downloadFinished "✅ Descarga completada"
            acc.total_downloaded acc.total_failed] }

/-- `DownloadService::download_tracks_segmented`.  Effects are parameters:
`pathExists` is the filesystem oracle, `probe` the outcome of the
`spotdl --version` check, `outcomes` the per-global-index task outcomes and
`pick` the completion scheduler.  On success the returned `JobAcc` carries
the totals reported by the final `download-finished` event (the Rust
function itself returns `Ok(())`). -/
def download_tracks_segmented (urls : List String) (segment_size delay : Nat)
    (output_template format : String) (output_dir : Option String)
    (pathExists : String → Bool) (probe : ProcResult)
    (outcomes : Nat → TaskOutcome) (pick : Nat → Nat) : Except AppError JobAcc :=
  if urls.isEmpty then .error (.download (.failed "Empty URL list"))
  else
    match validate_batch_size urls.length MAX_SONGS_PER_BATCH with
    | .error e => .error e
    | .ok _ =>
        match validate_download_format format with
        | .error e => .error e
        | .ok _ =>
            match validate_all_urls urls with
            | .error e => .error e
            | .ok _ =>
                match validate_output_dir pathExists output_dir with
                | .error e => .error e
                | .ok _ =>
                    match check_installed probe with
                    | .error e => .error e
                    | .ok _ =>
                        .ok (run_job urls segment_size delay output_template format
                              output_dir outcomes pick)

/-! ## Helper lemmas -/

theorem rust_starts_with_fail_mark (m : String) :
    rust_starts_with ("❌ " ++ m) "✅" = false := by
  have h : ("❌ " ++ m).data = "❌ ".data ++ m.data := String.data_append _ _
  rw [rust_starts_with, h]
  rfl

theorem rust_starts_with_io_mark (m : String) :
    rust_starts_with ("⚠️ Error: " ++ m) "✅" = false := by
  have h : ("⚠️ Error: " ++ m).data = "⚠️ Error: ".data ++ m.data := String.data_append _ _
  rw [rust_starts_with, h]
  rfl

/-! ## C1 -/

/-- C1 (code bug evaluation): a batch task whose external process exits
non-zero (terminal state `Failed`, status message `❌ boom`) is tallied into
`downloaded`, not `failed`: the task body returns `Ok(())` carrying the
failure only inside the status string, and `count_download_result` counts
any `Ok` as a success. -/
theorem failed_exit_counted_as_downloaded :
    process_download_output (.exited false "" "boom") "x" = .ok "❌ boom"
    ∧ (process_download_segment ["https://open.spotify.com/track/x"] 0 1 1 "tmpl" "mp3" none
        (fun _ => .proc (.exited false "" "boom")) (fun _ => 0)).downloaded = 1
    ∧ (process_download_segment ["https://open.spotify.com/track/x"] 0 1 1 "tmpl" "mp3" none
        (fun _ => .proc (.exited false "" "boom")) (fun _ => 0)).failed = 0 := by
  refine ⟨by decide, by decide, by decide⟩

/-! ## C2 -/

/-- C2 (counterexample): a batch task classified as a provider (YouTube)
error pushes **no** `ProgressEvent` at all — the `?` on
`process_download_output` propagates the error before the emit — refuting
the claim that exactly one final-status event is pushed regardless of
classification. -/
theorem provider_error_emits_no_progress :
    (download_single_track_with_progress "https://open.spotify.com/track/abc" "t" "mp3" none 3 7
        (.exited true "AudioProviderError: boom" "")).2 = []
    ∧ (download_single_track_with_progress "https://open.spotify.com/track/abc" "t" "mp3" none 3 7
        (.exited true "AudioProviderError: boom" "")).1 = .error (.download .youTubeError) := by
  refine ⟨by decide, by decide⟩

/-- C2 (amended): a batch task pushes exactly one `ProgressEvent` carrying
its final status whenever classification yields a status message (success,
process failure, spawn/IO error, timeout), and pushes no event when the
classification is a provider (YouTube) error. -/
theorem progress_event_unless_provider_error (url output_template format : String)
    (output_dir : Option String) (index total : Nat) (res : ProcResult) :
    (∀ st, process_download_output res (extract_song_id url) = .ok st →
      (download_single_track_with_progress url output_template format output_dir
          index total res).2
        = [Event.progress { song := extract_song_id url, index := index, total := total,
                            status := st, url := url }])
    ∧ (∀ e, process_download_output res (extract_song_id url) = .error e →
      (download_single_track_with_progress url output_template format output_dir
          index total res).2 = []) := by
  constructor
  · intro st h
    simp [download_single_track_with_progress, h]
  · intro e h
    simp [download_single_track_with_progress, h]

/-- Witness for the amended C2 at a concrete success and a concrete
timeout. -/
theorem progress_event_unless_provider_error_witness :
    (download_single_track_with_progress "https://open.spotify.com/track/abc" "t" "mp3" none 3 7
        (.exited true "done" "")).2
      = [Event.progress { song := "abc", index := 3, total := 7,
                          status := "✅ Descargada", url := "https://open.spotify.com/track/abc" }]
    ∧ (download_single_track_with_progress "https://open.spotify.com/track/abc" "t" "mp3" none 3 7
        .timeout).2
      = [Event.progress { song := "abc", index := 3, total := 7,
                          status := "⏱️ Timeout (>5min)", url := "https://open.spotify.com/track/abc" }] := by
  constructor
  · have h := (progress_event_unless_provider_error "https://open.spotify.com/track/abc" "t" "mp3"
      none 3 7 (.exited true "done" "")).1 "✅ Descargada" (by decide)
    have hs : extract_song_id "https://open.spotify.com/track/abc" = "abc" := by decide
    rw [hs] at h
    exact h
  · have h := (progress_event_unless_provider_error "https://open.spotify.com/track/abc" "t" "mp3"
      none 3 7 .timeout).1 "⏱️ Timeout (>5min)" (by decide)
    have hs : extract_song_id "https://open.spotify.com/track/abc" = "abc" := by decide
    rw [hs] at h
    exact h

/-! ## C4 -/

/-- C4: classification of a finished process — exit success without a
provider-error marker is `Succeeded` (`✅ Descargada`); a timeout is
`TimedOut` (the elapsed timer carries no process output, so the eventual
result is irrelevant); exit success with a marker is the distinct
`YouTubeError`; non-zero exit is `Failed` with the first stderr line
truncated to 100 characters as message. -/
theorem process_download_output_classification (song_name stdout stderr : String) :
    (rust_contains stdout "AudioProviderError" = false →
     rust_contains stdout "YT-DLP download error" = false →
      process_download_output (.exited true stdout stderr) song_name = .ok "✅ Descargada")
    ∧ process_download_output .timeout song_name = .ok "⏱️ Timeout (>5min)"
    ∧ ((rust_contains stdout "AudioProviderError" = true ∨
        rust_contains stdout "YT-DLP download error" = true) →
      process_download_output (.exited true stdout stderr) song_name
        = .error (.download .youTubeError))
    ∧ (∀ l ls, rust_lines stderr = l :: ls →
      process_download_output (.exited false stdout stderr) song_name
        = .ok ("❌ " ++ take_chars 100 l)) := by
  refine ⟨?_, rfl, ?_, ?_⟩
  · intro h1 h2
    simp [process_download_output, h1, h2]
  · intro h
    rcases h with h | h <;> simp [process_download_output, h]
  · intro l ls h
    simp [process_download_output, h]

/-- Witness for C4 at concrete outputs. -/
theorem process_download_output_classification_witness :
    process_download_output (.exited true "Downloaded track" "") "s" = .ok "✅ Descargada"
    ∧ process_download_output (.exited true "AudioProviderError: x" "") "s"
        = .error (.download .youTubeError)
    ∧ process_download_output (.exited false "" "boom\nrest") "s" = .ok "❌ boom" := by
  refine ⟨(process_download_output_classification "s" "Downloaded track" "").1 (by decide) (by decide),
    (process_download_output_classification "s" "AudioProviderError: x" "").2.2.1 (Or.inl (by decide)),
    ?_⟩
  have h := (process_download_output_classification "s" "" "boom\nrest").2.2.2 "boom" ["rest"]
    (by decide)
  have h2 : ("❌ " ++ take_chars 100 "boom") = "❌ boom" := by decide
  rw [h2] at h
  exact h

/-! ## C7 -/

/-- C7: the Command Builder's output-path construction — both directory and
non-empty template join; only a directory gives the directory; only a
non-empty template gives the template; neither gives no explicit `--output`
argument (the full argument lists are shown for both shapes). -/
theorem build_output_path_cases (dir output_template url format : String) :
    (output_template ≠ "" →
      build_output_path output_template (some dir) = some (dir ++ "/" ++ output_template))
    ∧ build_output_path "" (some dir) = some dir
    ∧ (output_template ≠ "" → build_output_path output_template none = some output_template)
    ∧ build_output_path "" none = none
    ∧ build_spotdl_command url format none
        = ["download", url, "--format", format, "--audio", "youtube-music", "youtube",
           "--print-errors"]
    ∧ (∀ path, build_spotdl_command url format (some path)
        = ["download", url, "--output", path, "--format", format, "--audio", "youtube-music",
           "youtube", "--print-errors"]) := by
  refine ⟨?_, rfl, ?_, rfl, rfl, fun path => rfl⟩
  · intro h
    have hne : output_template.isEmpty = false := by
      cases hE : output_template.isEmpty
      · rfl
      · exact absurd ((String.isEmpty_iff output_template).mp hE) h
    simp [build_output_path, hne]
  · intro h
    have hne : output_template.isEmpty = false := by
      cases hE : output_template.isEmpty
      · rfl
      · exact absurd ((String.isEmpty_iff output_template).mp hE) h
    simp [build_output_path, hne]

/-- Witness for C7 with a concrete directory and template. -/
theorem build_output_path_cases_witness :
    build_output_path "t" (some "d") = some "d/t"
    ∧ build_output_path "t" none = some "t" := by
  constructor
  · have h := (build_output_path_cases "d" "t" "u" "mp3").1 (by decide)
    have h2 : ("d" ++ "/" ++ "t" : String) = "d/t" := by decide
    rw [h2] at h
    exact h
  · exact (build_output_path_cases "d" "t" "u" "mp3").2.2.1 (by decide)

/-! ## C8 -/

/-- C8: a job whose `audio_format` is outside `{mp3, flac, ogg, m4a, opus}`
is rejected with an `InvalidFormat` error naming the allowed set, for every
URL list (even invalid URLs), every filesystem oracle, every probe outcome
and every scheduler — so the rejection precedes the URL-shape check, the
output-directory check, the spotdl probe and any task spawn. -/
theorem invalid_format_rejected (urls : List String) (segment_size delay : Nat)
    (output_template format : String) (output_dir : Option String)
    (pathExists : String → Bool) (probe : ProcResult)
    (outcomes : Nat → TaskOutcome) (pick : Nat → Nat)
    (hne : urls ≠ []) (hsize : urls.length ≤ MAX_SONGS_PER_BATCH)
    (hfmt : (["mp3", "flac", "ogg", "m4a", "opus"] : List String).contains format = false) :
    download_tracks_segmented urls segment_size delay output_template format output_dir
        pathExists probe outcomes pick
      = .error (.download (.invalidFormat "Use one of: mp3, flac, ogg, m4a, opus")) := by
  have hempty : urls.isEmpty = false := by simpa using hne
  have hbatch : validate_batch_size urls.length MAX_SONGS_PER_BATCH = .ok () := by
    simp [validate_batch_size, hsize]
  have hmsg : ("Use one of: " ++ String.intercalate ", " ["mp3", "flac", "ogg", "m4a", "opus"])
      = "Use one of: mp3, flac, ogg, m4a, opus" := by decide
  have hf : validate_download_format format
      = .error (.download (.invalidFormat "Use one of: mp3, flac, ogg, m4a, opus")) := by
    rw [validate_download_format]
    simp only [hfmt]
    rw [hmsg]
    rfl
  simp [download_tracks_segmented, hempty, hbatch, hf]

/-- Witness for C8: `audio_format="wav"`, a URL that is not even
Spotify-shaped, a missing directory and a probe that would time out. -/
theorem invalid_format_rejected_witness :
    download_tracks_segmented ["not-a-url"] 3 5 "t" "wav" (some "nowhere")
        (fun _ => false) .timeout (fun _ => .crashed) (fun _ => 0)
      = .error (.download (.invalidFormat "Use one of: mp3, flac, ogg, m4a, opus")) :=
  invalid_format_rejected ["not-a-url"] 3 5 "t" "wav" (some "nowhere")
    (fun _ => false) .timeout (fun _ => .crashed) (fun _ => 0)
    (by decide) (by decide) (by decide)

/-! ## C10 -/

/-- C10: `validate_output_path` rejects any path containing `..` as a
substring (even inside a single component) with a `PathTraversal` error;
otherwise it accepts whenever the parent directory exists, without ever
consulting the existence of the path itself. -/
theorem validate_output_path_spec (pathExists : String → Bool) (path : String) :
    (rust_contains path ".." = true →
      validate_output_path pathExists path = .error (.file (.pathTraversal path)))
    ∧ (rust_contains path ".." = false →
      ∀ parent, rust_path_parent path = some parent → pathExists parent = true →
        validate_output_path pathExists path = .ok path) := by
  constructor
  · intro h
    simp [validate_output_path, h]
  · intro h parent hp hex
    simp [validate_output_path, h, hp, hex]

/-- Witness for C10: `a..b` (no traversal segment, just a name containing
`..`) is rejected; `music/newfile` is accepted by an oracle under which only
the parent `music` exists and the full path does not. -/
theorem validate_output_path_spec_witness :
    validate_output_path (fun s => s == "music") "a..b"
      = .error (.file (.pathTraversal "a..b"))
    ∧ (fun s => s == "music") "music/newfile" = false
    ∧ validate_output_path (fun s => s == "music") "music/newfile" = .ok "music/newfile" := by
  refine ⟨(validate_output_path_spec (fun s => s == "music") "a..b").1 (by decide), by decide,
    (validate_output_path_spec (fun s => s == "music") "music/newfile").2 (by decide) "music"
      (by decide) (by decide)⟩

/-! ## Segment executor lemmas -/

theorem count_download_result_sum (t : TaskJoin) (d f : Nat) :
    (count_download_result t d f).1 + (count_download_result t d f).2 = d + f + 1 := by
  rcases t with r | _
  · rcases r with e | v <;> simp [count_download_result] <;> omega
  · simp [count_download_result]
    omega

theorem spawnTask_eqs (t : TaskJoin × List Event) (s : SegState) :
    (spawnTask t s).inFlight.length = s.inFlight.length + 1
    ∧ (spawnTask t s).downloaded = s.downloaded
    ∧ (spawnTask t s).failed = s.failed
    ∧ (spawnTask t s).maxSeen = max s.maxSeen (s.inFlight.length + 1) := by
  refine ⟨?_, rfl, rfl, ?_⟩ <;> simp [spawnTask]

theorem reapOne_eqs (pick : Nat → Nat) (s : SegState) (h : s.inFlight ≠ []) :
    (reapOne pick s).inFlight.length + 1 = s.inFlight.length
    ∧ (reapOne pick s).downloaded + (reapOne pick s).failed = s.downloaded + s.failed + 1
    ∧ (reapOne pick s).maxSeen = s.maxSeen := by
  have hlen : 0 < s.inFlight.length := List.length_pos.mpr h
  have hemp : s.inFlight.isEmpty = false := by simpa using h
  have hi : pick s.awaits % s.inFlight.length < s.inFlight.length := Nat.mod_lt _ hlen
  rw [reapOne]
  simp only [hemp, Bool.false_eq_true, if_false]
  refine ⟨?_, ?_, trivial⟩
  · simp only [List.length_eraseIdx_of_lt hi]
    omega
  · exact count_download_result_sum _ _ _

theorem segLoop_cap (pick : Nat → Nat) (ts : List (TaskJoin × List Event)) :
    ∀ s : SegState, s.inFlight.length + 1 ≤ MAX_CONCURRENT_DOWNLOADS →
      s.maxSeen ≤ MAX_CONCURRENT_DOWNLOADS →
      (segLoop pick ts s).inFlight.length + 1 ≤ MAX_CONCURRENT_DOWNLOADS
      ∧ (segLoop pick ts s).maxSeen ≤ MAX_CONCURRENT_DOWNLOADS := by
  induction ts with
  | nil => intro s h1 h2; exact ⟨h1, h2⟩
  | cons t ts ih =>
    intro s h1 h2
    obtain ⟨hl1, _, _, hm1⟩ := spawnTask_eqs t s
    simp only [segLoop]
    by_cases hc : MAX_CONCURRENT_DOWNLOADS ≤ (spawnTask t s).inFlight.length
    · rw [if_pos hc]
      have hne : (spawnTask t s).inFlight ≠ [] := by
        have : 0 < (spawnTask t s).inFlight.length := by
          have hK : 0 < MAX_CONCURRENT_DOWNLOADS := by decide
          omega
        exact List.length_pos.mp this
      obtain ⟨hr1, _, hr3⟩ := reapOne_eqs pick (spawnTask t s) hne
      apply ih
      · omega
      · rw [hr3, hm1]
        omega
    · rw [if_neg hc]
      apply ih
      · omega
      · rw [hm1]
        omega

theorem segLoop_sum (pick : Nat → Nat) (ts : List (TaskJoin × List Event)) :
    ∀ s : SegState,
      (segLoop pick ts s).downloaded + (segLoop pick ts s).failed
          + (segLoop pick ts s).inFlight.length
        = s.downloaded + s.failed + s.inFlight.length + ts.length := by
  induction ts with
  | nil => intro s; simp [segLoop]
  | cons t ts ih =>
    intro s
    obtain ⟨hl1, hd1, hf1, _⟩ := spawnTask_eqs t s
    simp only [segLoop]
    by_cases hc : MAX_CONCURRENT_DOWNLOADS ≤ (spawnTask t s).inFlight.length
    · rw [if_pos hc]
      have hne : (spawnTask t s).inFlight ≠ [] := by
        have : 0 < (spawnTask t s).inFlight.length := by
          have hK : 0 < MAX_CONCURRENT_DOWNLOADS := by decide
          omega
        exact List.length_pos.mp this
      obtain ⟨hr1, hr2, _⟩ := reapOne_eqs pick (spawnTask t s) hne
      rw [ih]
      simp only [List.length_cons]
      omega
    · rw [if_neg hc]
      rw [ih]
      simp only [List.length_cons]
      omega

theorem drainN_spec (pick : Nat → Nat) (n : Nat) :
    ∀ s : SegState,
      (drainN pick n s).maxSeen = s.maxSeen
      ∧ (drainN pick n s).downloaded + (drainN pick n s).failed
            + (drainN pick n s).inFlight.length
          = s.downloaded + s.failed + s.inFlight.length
      ∧ (s.inFlight.length ≤ n → (drainN pick n s).inFlight = []) := by
  induction n with
  | zero =>
    intro s
    refine ⟨rfl, rfl, ?_⟩
    intro h
    exact List.length_eq_zero.mp (Nat.le_zero.mp h)
  | succ n ih =>
    intro s
    cases he : s.inFlight.isEmpty
    · have hne : s.inFlight ≠ [] := by simpa using he
      obtain ⟨hr1, hr2, hr3⟩ := reapOne_eqs pick s hne
      obtain ⟨ih1, ih2, ih3⟩ := ih (reapOne pick s)
      simp only [drainN, he, Bool.false_eq_true, if_false]
      refine ⟨by rw [ih1, hr3], by omega, ?_⟩
      intro h
      exact ih3 (by omega)
    · have hnil : s.inFlight = [] := List.isEmpty_iff.mp he
      simp only [drainN, he, if_true]
      exact ⟨trivial, trivial, fun _ => hnil⟩

theorem segTasks_length (segment_idx segment_size total : Nat) (output_template format : String)
    (output_dir : Option String) (outcomes : Nat → TaskOutcome) :
    ∀ (chunk : List String) (j : Nat),
      (segTasks segment_idx segment_size total output_template format output_dir outcomes
          j chunk).length = chunk.length := by
  intro chunk
  induction chunk with
  | nil => intro j; rfl
  | cons u rest ih => intro j; simp [segTasks, ih]

/-- Master lemma for one segment: the two counters always tally the whole
chunk, the in-flight collection is fully drained, and the in-flight
high-water mark never exceeds the concurrency cap. -/
theorem process_download_segment_spec (chunk : List String)
    (segment_idx segment_size total : Nat) (output_template format : String)
    (output_dir : Option String) (outcomes : Nat → TaskOutcome) (pick : Nat → Nat) :
    (process_download_segment chunk segment_idx segment_size total output_template format
        output_dir outcomes pick).downloaded
      + (process_download_segment chunk segment_idx segment_size total output_template format
          output_dir outcomes pick).failed = chunk.length
    ∧ (process_download_segment chunk segment_idx segment_size total output_template format
        output_dir outcomes pick).inFlight = []
    ∧ (process_download_segment chunk segment_idx segment_size total output_template format
        output_dir outcomes pick).maxSeen ≤ MAX_CONCURRENT_DOWNLOADS := by
  simp only [process_download_segment]
  have hsum := segLoop_sum pick
    (segTasks segment_idx segment_size total output_template format output_dir outcomes 0 chunk)
    { inFlight := [], downloaded := 0, failed := 0, events := [], awaits := 0, maxSeen := 0 }
  have hcap := segLoop_cap pick
    (segTasks segment_idx segment_size total output_template format output_dir outcomes 0 chunk)
    { inFlight := [], downloaded := 0, failed := 0, events := [], awaits := 0, maxSeen := 0 }
    (by decide) (by decide)
  obtain ⟨hd1, hd2, hd3⟩ := drainN_spec pick
    (segLoop pick
      (segTasks segment_idx segment_size total output_template format output_dir outcomes 0 chunk)
      { inFlight := [], downloaded := 0, failed := 0, events := [], awaits := 0,
        maxSeen := 0 }).inFlight.length
    (segLoop pick
      (segTasks segment_idx segment_size total output_template format output_dir outcomes 0 chunk)
      { inFlight := [], downloaded := 0, failed := 0, events := [], awaits := 0, maxSeen := 0 })
  have hlen : (segTasks segment_idx segment_size total output_template format output_dir
      outcomes 0 chunk).length = chunk.length :=
    segTasks_length segment_idx segment_size total output_template format output_dir
      outcomes chunk 0
  have hdrained := hd3 (Nat.le_refl _)
  have hflen : (drainN pick
      (segLoop pick
        (segTasks segment_idx segment_size total output_template format output_dir outcomes 0 chunk)
        { inFlight := [], downloaded := 0, failed := 0, events := [], awaits := 0,
          maxSeen := 0 }).inFlight.length
      (segLoop pick
        (segTasks segment_idx segment_size total output_template format output_dir outcomes 0 chunk)
        { inFlight := [], downloaded := 0, failed := 0, events := [], awaits := 0,
          maxSeen := 0 })).inFlight.length = 0 := by
    rw [hdrained]
    rfl
  simp only [List.length_nil, Nat.add_zero, Nat.zero_add] at hsum
  refine ⟨?_, hdrained, ?_⟩
  · omega
  · rw [hd1]
    exact hcap.2

/-! ## C6 -/

/-- C6: for every segment, every task-outcome assignment and every
completion scheduler, the number of in-flight download tasks never exceeds
`MAX_CONCURRENT_DOWNLOADS` at any observation point (the recorded
high-water mark is bounded by the cap), and the segment ends only after the
in-flight collection has fully drained. -/
theorem segment_concurrency_bound (chunk : List String)
    (segment_idx segment_size total : Nat) (output_template format : String)
    (output_dir : Option String) (outcomes : Nat → TaskOutcome) (pick : Nat → Nat) :
    (process_download_segment chunk segment_idx segment_size total output_template format
        output_dir outcomes pick).maxSeen ≤ MAX_CONCURRENT_DOWNLOADS
    ∧ (process_download_segment chunk segment_idx segment_size total output_template format
        output_dir outcomes pick).inFlight = [] :=
  ⟨(process_download_segment_spec chunk segment_idx segment_size total output_template format
      output_dir outcomes pick).2.2,
   (process_download_segment_spec chunk segment_idx segment_size total output_template format
      output_dir outcomes pick).2.1⟩

/-! ## C9 -/

/-- C9: the single-track entry point returns a success string exactly when
the classification is `Succeeded`; every other classification — provider
(YouTube) error, non-zero exit, spawn/IO error, timeout — is returned to
the caller as a classified error (a propagated `AppError` or a
`DownloadError::Failed` wrapping the status), never merely counted. -/
theorem download_single_track_spec (url output_template format : String)
    (output_dir : Option String) (pathExists : String → Bool) (res : ProcResult)
    (hu : validate_spotify_url url = .ok ())
    (hf : validate_download_format format = .ok ())
    (hd : validate_output_dir pathExists output_dir = .ok ()) :
    ((∃ msg, (download_single_track url output_template format output_dir pathExists res).1
        = .ok msg)
      ↔ process_download_output res (extract_song_id url) = .ok "✅ Descargada")
    ∧ (∀ st, process_download_output res (extract_song_id url) = .ok st →
        st ≠ "✅ Descargada" →
        (download_single_track url output_template format output_dir pathExists res).1
          = .error (.download (.failed st)))
    ∧ (∀ e, process_download_output res (extract_song_id url) = .error e →
        (download_single_track url output_template format output_dir pathExists res).1
          = .error e) := by
  have hred : download_single_track url output_template format output_dir pathExists res
      = handle_download_result res (extract_song_id url) url := by
    simp [download_single_track, hu, hf, hd]
  rw [hred]
  rcases res with _ | e | ⟨succ, out, err⟩
  · -- timeout
    have hp : process_download_output ProcResult.timeout (extract_song_id url)
        = .ok "⏱️ Timeout (>5min)" := rfl
    refine ⟨?_, ?_, ?_⟩
    · constructor
      · rintro ⟨msg, hmsg⟩
        rw [handle_download_result] at hmsg
        simp only [hp] at hmsg
        have hsw : rust_starts_with "⏱️ Timeout (>5min)" "✅" = false := by decide
        simp [hsw] at hmsg
      · intro hcl
        rw [hp] at hcl
        exact absurd (Except.ok.inj hcl) (by decide)
    · intro st hst _
      rw [hp] at hst
      have : st = "⏱️ Timeout (>5min)" := (Except.ok.inj hst).symm
      subst this
      rw [handle_download_result]
      simp only [hp]
      have hsw : rust_starts_with "⏱️ Timeout (>5min)" "✅" = false := by decide
      simp [hsw]
    · intro e he
      rw [hp] at he
      exact absurd he (by simp)
  · -- spawn/IO error
    have hp : process_download_output (ProcResult.ioError e) (extract_song_id url)
        = .ok ("⚠️ Error: " ++ e) := rfl
    refine ⟨?_, ?_, ?_⟩
    · constructor
      · rintro ⟨msg, hmsg⟩
        rw [handle_download_result] at hmsg
        simp only [hp] at hmsg
        simp [rust_starts_with_io_mark] at hmsg
      · intro hcl
        rw [hp] at hcl
        have h1 := Except.ok.inj hcl
        have h2 : rust_starts_with "✅ Descargada" "✅" = true := by decide
        rw [← h1, rust_starts_with_io_mark] at h2
        exact absurd h2 (by decide)
    · intro st hst _
      rw [hp] at hst
      have : st = "⚠️ Error: " ++ e := (Except.ok.inj hst).symm
      subst this
      rw [handle_download_result]
      simp only [hp]
      simp [rust_starts_with_io_mark]
    · intro e' he
      rw [hp] at he
      exact absurd he (by simp)
  · cases succ
    · -- non-zero exit
      have hp : process_download_output (ProcResult.exited false out err) (extract_song_id url)
          = .ok ("❌ " ++ take_chars 100 ((rust_lines err).headD "Error desconocido")) := rfl
      refine ⟨?_, ?_, ?_⟩
      · constructor
        · rintro ⟨msg, hmsg⟩
          rw [handle_download_result] at hmsg
          simp only [hp] at hmsg
          simp [rust_starts_with_fail_mark] at hmsg
        · intro hcl
          rw [hp] at hcl
          have h1 := Except.ok.inj hcl
          have h2 : rust_starts_with "✅ Descargada" "✅" = true := by decide
          rw [← h1, rust_starts_with_fail_mark] at h2
          exact absurd h2 (by decide)
      · intro st hst _
        rw [hp] at hst
        have : st = "❌ " ++ take_chars 100 ((rust_lines err).headD "Error desconocido") :=
          (Except.ok.inj hst).symm
        subst this
        rw [handle_download_result]
        simp only [hp]
        simp [rust_starts_with_fail_mark]
      · intro e' he
        rw [hp] at he
        exact absurd he (by simp)
    · -- exit success: succeeded or provider error
      by_cases hm : (rust_contains out "AudioProviderError"
          || rust_contains out "YT-DLP download error") = true
      · have hp : process_download_output (ProcResult.exited true out err) (extract_song_id url)
            = .error (.download .youTubeError) := by
          rw [process_download_output]
          simp [hm]
        refine ⟨?_, ?_, ?_⟩
        · constructor
          · rintro ⟨msg, hmsg⟩
            rw [handle_download_result] at hmsg
            simp only [hp] at hmsg
            simp at hmsg
          · intro hcl
            rw [hp] at hcl
            exact absurd hcl (by simp)
        · intro st hst _
          rw [hp] at hst
          exact absurd hst (by simp)
        · intro e' he
          rw [hp] at he
          have : AppError.download DownloadError.youTubeError = e' := Except.error.inj he
          subst this
          rw [handle_download_result]
          simp only [hp]
      · have hp : process_download_output (ProcResult.exited true out err) (extract_song_id url)
            = .ok "✅ Descargada" := by
          rw [process_download_output]
          simp only [Bool.not_eq_true] at hm
          simp [hm]
        refine ⟨?_, ?_, ?_⟩
        · constructor
          · intro _
            exact hp
          · intro _
            refine ⟨"✅ " ++ extract_song_id url ++ " descargada correctamente", ?_⟩
            rw [handle_download_result]
            simp only [hp]
            have hsw : rust_starts_with "✅ Descargada" "✅" = true := by decide
            simp [hsw]
        · intro st hst hne
          rw [hp] at hst
          exact absurd (Except.ok.inj hst).symm hne
        · intro e' he
          rw [hp] at he
          exact absurd he (by simp)

/-- Witness for C9: a clean success yields an `Ok` string; a timeout is
returned to the caller as a `Failed` error. -/
theorem download_single_track_spec_witness :
    (∃ msg, (download_single_track "https://open.spotify.com/track/abc" "t" "mp3" none
        (fun _ => true) (.exited true "done" "")).1 = .ok msg)
    ∧ (download_single_track "https://open.spotify.com/track/abc" "t" "mp3" none
        (fun _ => true) .timeout).1 = .error (.download (.failed "⏱️ Timeout (>5min)")) := by
  constructor
  · exact (download_single_track_spec "https://open.spotify.com/track/abc" "t" "mp3" none
      (fun _ => true) (.exited true "done" "") (by decide) (by decide) rfl).1.mpr (by decide)
  · exact (download_single_track_spec "https://open.spotify.com/track/abc" "t" "mp3" none
      (fun _ => true) .timeout (by decide) (by decide) rfl).2.1
      "⏱️ Timeout (>5min)" (by decide) (by decide)

/-! ## Event-trace lemmas: segments emit only progress events -/

/-- Every event of the list is a `download-progress` event. -/
def progressOnly (l : List Event) : Prop := ∀ e ∈ l, e.isProgress = true

theorem progressOnly_append {l1 l2 : List Event} (h1 : progressOnly l1) (h2 : progressOnly l2) :
    progressOnly (l1 ++ l2) := by
  intro e he
  rcases List.mem_append.mp he with h | h
  · exact h1 e h
  · exact h2 e h

theorem not_seg_of_progress {e : Event} (h : e.isProgress = true) :
    e.isSegmentFinished = false ∧ e.isDownloadFinished = false := by
  cases e <;>
    simp [Event.isProgress, Event.isSegmentFinished, Event.isDownloadFinished] at h ⊢

theorem progressOnly_countP_zero {l : List Event} (h : progressOnly l) :
    l.countP Event.isSegmentFinished = 0 ∧ l.countP Event.isDownloadFinished = 0 := by
  constructor <;> rw [List.countP_eq_zero] <;> intro e he hc
  · rw [(not_seg_of_progress (h e he)).1] at hc
    exact absurd hc (by decide)
  · rw [(not_seg_of_progress (h e he)).2] at hc
    exact absurd hc (by decide)

theorem dstwp_progressOnly (url output_template format : String) (output_dir : Option String)
    (index total : Nat) (res : ProcResult) :
    progressOnly (download_single_track_with_progress url output_template format output_dir
        index total res).2 := by
  intro ev hev
  rcases h : process_download_output res (extract_song_id url) with e | st
  · rw [download_single_track_with_progress] at hev
    simp [h] at hev
  · rw [download_single_track_with_progress] at hev
    simp [h] at hev
    subst hev
    rfl

theorem runBatchTask_progressOnly (url output_template format : String)
    (output_dir : Option String) (index total : Nat) (oc : TaskOutcome) :
    progressOnly (runBatchTask url output_template format output_dir index total oc).2 := by
  rcases oc with _ | r
  · intro e he
    simp [runBatchTask] at he
  · exact dstwp_progressOnly url output_template format output_dir index total r

theorem getD_mem_or (l : List (TaskJoin × List Event)) (i : Nat) (d : TaskJoin × List Event) :
    l.getD i d ∈ l ∨ l.getD i d = d := by
  induction l generalizing i with
  | nil =>
    right
    cases i <;> rfl
  | cons a t ih =>
    cases i with
    | zero => exact Or.inl (List.mem_cons_self a t)
    | succ n =>
      rw [List.getD_cons_succ]
      rcases ih n with h | h
      · exact Or.inl (List.mem_cons_of_mem _ h)
      · exact Or.inr h

theorem segInv_reapOne (pick : Nat → Nat) (s : SegState)
    (h1 : progressOnly s.events) (h2 : ∀ t ∈ s.inFlight, progressOnly t.2) :
    progressOnly (reapOne pick s).events
    ∧ ∀ t ∈ (reapOne pick s).inFlight, progressOnly t.2 := by
  cases he : s.inFlight.isEmpty
  · rw [reapOne]
    simp only [he, Bool.false_eq_true, if_false]
    constructor
    · apply progressOnly_append h1
      rcases getD_mem_or s.inFlight (pick s.awaits % s.inFlight.length) (TaskJoin.crashed, [])
        with h | h
      · exact h2 _ h
      · rw [h]
        intro e he'
        simp at he'
    · intro t ht
      exact h2 t (List.mem_of_mem_eraseIdx ht)
  · rw [reapOne]
    simp only [he, if_true]
    exact ⟨h1, h2⟩

theorem segInv_segLoop (pick : Nat → Nat) (ts : List (TaskJoin × List Event)) :
    ∀ s : SegState, (∀ t ∈ ts, progressOnly t.2) → progressOnly s.events →
      (∀ t ∈ s.inFlight, progressOnly t.2) →
      progressOnly (segLoop pick ts s).events
      ∧ ∀ t ∈ (segLoop pick ts s).inFlight, progressOnly t.2 := by
  induction ts with
  | nil => intro s _ h1 h2; exact ⟨h1, h2⟩
  | cons t ts ih =>
    intro s hts h1 h2
    have hsp1 : progressOnly (spawnTask t s).events := h1
    have hsp2 : ∀ u ∈ (spawnTask t s).inFlight, progressOnly u.2 := by
      intro u hu
      rcases List.mem_append.mp hu with h | h
      · exact h2 u h
      · have hut : u = t := by simpa using h
        rw [hut]
        exact hts t (List.mem_cons_self t ts)
    have htail : ∀ u ∈ ts, progressOnly u.2 := fun u hu => hts u (List.mem_cons_of_mem _ hu)
    simp only [segLoop]
    by_cases hc : MAX_CONCURRENT_DOWNLOADS ≤ (spawnTask t s).inFlight.length
    · rw [if_pos hc]
      obtain ⟨hr1, hr2⟩ := segInv_reapOne pick (spawnTask t s) hsp1 hsp2
      exact ih _ htail hr1 hr2
    · rw [if_neg hc]
      exact ih _ htail hsp1 hsp2

theorem segInv_drainN (pick : Nat → Nat) (n : Nat) :
    ∀ s : SegState, progressOnly s.events → (∀ t ∈ s.inFlight, progressOnly t.2) →
      progressOnly (drainN pick n s).events := by
  induction n with
  | zero => intro s h1 _; exact h1
  | succ n ih =>
    intro s h1 h2
    cases he : s.inFlight.isEmpty
    · obtain ⟨hr1, hr2⟩ := segInv_reapOne pick s h1 h2
      simp only [drainN, he, Bool.false_eq_true, if_false]
      exact ih _ hr1 hr2
    · simp only [drainN, he, if_true]
      exact h1

theorem segTasks_progressOnly (segment_idx segment_size total : Nat)
    (output_template format : String) (output_dir : Option String)
    (outcomes : Nat → TaskOutcome) :
    ∀ (chunk : List String) (j : Nat),
      ∀ t ∈ segTasks segment_idx segment_size total output_template format output_dir outcomes
          j chunk, progressOnly t.2 := by
  intro chunk
  induction chunk with
  | nil => intro j t ht; simp [segTasks] at ht
  | cons u rest ih =>
    intro j t ht
    rw [segTasks] at ht
    rcases List.mem_cons.mp ht with h | h
    · subst h
      exact runBatchTask_progressOnly u output_template format output_dir
        (segment_idx * segment_size + j + 1) total _
    · exact ih (j + 1) t h

theorem process_download_segment_progressOnly (chunk : List String)
    (segment_idx segment_size total : Nat) (output_template format : String)
    (output_dir : Option String) (outcomes : Nat → TaskOutcome) (pick : Nat → Nat) :
    progressOnly (process_download_segment chunk segment_idx segment_size total output_template
        format output_dir outcomes pick).events := by
  simp only [process_download_segment]
  apply segInv_drainN
  · exact (segInv_segLoop pick _ _
      (segTasks_progressOnly segment_idx segment_size total output_template format output_dir
        outcomes chunk 0)
      (fun e he => by simp at he) (fun t ht => by simp at ht)).1
  · exact (segInv_segLoop pick _ _
      (segTasks_progressOnly segment_idx segment_size total output_template format output_dir
        outcomes chunk 0)
      (fun e he => by simp at he) (fun t ht => by simp at ht)).2

/-! ## Orchestrator lemmas -/

theorem countP_segFin_of_segFin (k : Nat) (m : String) :
    List.countP Event.isSegmentFinished [Event.segmentFinished k m] = 1 := rfl

theorem countP_dlFin_of_segFin (k : Nat) (m : String) :
    List.countP Event.isDownloadFinished [Event.segmentFinished k m] = 0 := rfl

theorem countP_segFin_of_dlFin (m : String) (a b : Nat) :
    List.countP Event.isSegmentFinished [Event.downloadFinished m a b] = 0 := rfl

theorem countP_dlFin_of_dlFin (m : String) (a b : Nat) :
    List.countP Event.isDownloadFinished [Event.downloadFinished m a b] = 1 := rfl

theorem chunksGo_sum (n : Nat) :
    ∀ (fuel : Nat) (l : List String), l.length ≤ fuel →
      ((chunksGo (n + 1) fuel l).map List.length).sum = l.length := by
  intro fuel
  induction fuel with
  | zero =>
    intro l h
    have hl : l = [] := List.length_eq_zero.mp (Nat.le_zero.mp h)
    subst hl
    rfl
  | succ fuel ih =>
    intro l h
    cases l with
    | nil => rfl
    | cons a t =>
      simp only [chunksGo, List.map_cons, List.sum_cons]
      rw [ih ((a :: t).drop (n + 1)) (by simp only [List.length_drop]; simp at h ⊢; omega)]
      simp only [List.length_take, List.length_drop, List.length_cons]
      omega

theorem listChunks_sum (n : Nat) (l : List String) :
    ((listChunks (n + 1) l).map List.length).sum = l.length :=
  chunksGo_sum n l.length l (Nat.le_refl _)

theorem listChunks_ne_nil (n : Nat) (l : List String) (h : l ≠ []) :
    listChunks (n + 1) l ≠ [] := by
  cases l with
  | nil => exact absurd rfl h
  | cons a t => simp [listChunks, chunksGo]

/-- Master lemma for the orchestrator loop starting at segment `idx` of
`total_segments`: totals accumulate the chunk lengths, each iteration emits
exactly one `download-segment-finished` event and no `download-finished`
event, and the inter-segment delay fires once per chunk except after the
last segment. -/
theorem runSegments_spec (segment_size total : Nat) (output_template format : String)
    (output_dir : Option String) (outcomes : Nat → TaskOutcome) (pick : Nat → Nat)
    (total_segments : Nat) (chunks : List (List String)) :
    ∀ (idx : Nat) (acc : JobAcc), idx + chunks.length = total_segments →
      (runSegments total_segments segment_size total output_template format output_dir outcomes
          pick idx chunks acc).total_downloaded
        + (runSegments total_segments segment_size total output_template format output_dir
            outcomes pick idx chunks acc).total_failed
        = acc.total_downloaded + acc.total_failed + (chunks.map List.length).sum
      ∧ (runSegments total_segments segment_size total output_template format output_dir outcomes
          pick idx chunks acc).events.countP Event.isSegmentFinished
        = acc.events.countP Event.isSegmentFinished + chunks.length
      ∧ (runSegments total_segments segment_size total output_template format output_dir outcomes
          pick idx chunks acc).events.countP Event.isDownloadFinished
        = acc.events.countP Event.isDownloadFinished
      ∧ (runSegments total_segments segment_size total output_template format output_dir outcomes
          pick idx chunks acc).delays = acc.delays + (chunks.length - 1) := by
  induction chunks with
  | nil =>
    intro idx acc h
    simp [runSegments]
  | cons chunk rest ih =>
    intro idx acc h
    simp only [runSegments]
    set seg := process_download_segment chunk idx segment_size total output_template format
        output_dir outcomes pick with hseg
    have hsum : seg.downloaded + seg.failed = chunk.length := by
      rw [hseg]
      exact (process_download_segment_spec chunk idx segment_size total output_template format
        output_dir outcomes pick).1
    have hz := progressOnly_countP_zero (l := seg.events) (by
      rw [hseg]
      exact process_download_segment_progressOnly chunk idx segment_size total output_template
        format output_dir outcomes pick)
    obtain ⟨ih1, ih2, ih3, ih4⟩ := ih (idx + 1)
      { total_downloaded := acc.total_downloaded + seg.downloaded
        total_failed := acc.total_failed + seg.failed
        events := acc.events ++ seg.events
          ++ [Event.segmentFinished (idx + 1)
                ("✅ Segmento " ++ toString (idx + 1) ++ " completado")]
        delays := acc.delays + (if idx < total_segments - 1 then 1 else 0)
        delay_secs := acc.delay_secs
        maxInFlight := max acc.maxInFlight seg.maxSeen }
      (by simp only [List.length_cons] at h; omega)
    refine ⟨?_, ?_, ?_, ?_⟩
    · rw [ih1]
      simp only [List.map_cons, List.sum_cons]
      omega
    · rw [ih2]
      simp only [List.countP_append, countP_segFin_of_segFin, List.length_cons]
      omega
    · rw [ih3]
      simp only [List.countP_append, countP_dlFin_of_segFin]
      omega
    · rw [ih4]
      simp only [List.length_cons] at h ⊢
      by_cases hc : idx < total_segments - 1
      · rw [if_pos hc]
        omega
      · rw [if_neg hc]
        omega

/-- Pre-flight success: when all validations and the tool probe succeed the
orchestrator returns `Ok` with the `run_job` outcome. -/
theorem download_tracks_segmented_ok (urls : List String) (segment_size delay : Nat)
    (output_template format : String) (output_dir : Option String)
    (pathExists : String → Bool) (probe : ProcResult)
    (outcomes : Nat → TaskOutcome) (pick : Nat → Nat)
    (hne : urls ≠ []) (hsize : urls.length ≤ MAX_SONGS_PER_BATCH)
    (hfmt : validate_download_format format = .ok ())
    (hurls : validate_all_urls urls = .ok ())
    (hdir : validate_output_dir pathExists output_dir = .ok ())
    (v : String) (hprobe : check_installed probe = .ok v) :
    download_tracks_segmented urls segment_size delay output_template format output_dir
        pathExists probe outcomes pick
      = .ok (run_job urls segment_size delay output_template format output_dir outcomes pick) := by
  have hempty : urls.isEmpty = false := by simpa using hne
  have hbatch : validate_batch_size urls.length MAX_SONGS_PER_BATCH = .ok () := by
    simp [validate_batch_size, hsize]
  simp [download_tracks_segmented, hempty, hbatch, hfmt, hurls, hdir, hprobe]

/-- The observable outcome of `run_job` for a non-empty URL list: the two
totals tally every URL, one `download-segment-finished` event per segment,
exactly one `download-finished` event, and one inter-segment delay per
segment except the last. -/
theorem run_job_spec (urls : List String) (segment_size delay : Nat)
    (output_template format : String) (output_dir : Option String)
    (outcomes : Nat → TaskOutcome) (pick : Nat → Nat) (hne : urls ≠ []) :
    (run_job urls segment_size delay output_template format output_dir outcomes
        pick).total_downloaded
      + (run_job urls segment_size delay output_template format output_dir outcomes
          pick).total_failed = urls.length
    ∧ (run_job urls segment_size delay output_template format output_dir outcomes
        pick).events.countP Event.isSegmentFinished
      = (listChunks (min (max segment_size 1) 50) urls).length
    ∧ (run_job urls segment_size delay output_template format output_dir outcomes
        pick).events.countP Event.isDownloadFinished = 1
    ∧ (run_job urls segment_size delay output_template format output_dir outcomes
        pick).delays = (listChunks (min (max segment_size 1) 50) urls).length - 1
    ∧ 1 ≤ (listChunks (min (max segment_size 1) 50) urls).length := by
  obtain ⟨k, hk⟩ : ∃ k, min (max segment_size 1) 50 = k + 1 :=
    ⟨min (max segment_size 1) 50 - 1, by omega⟩
  have hchne : listChunks (min (max segment_size 1) 50) urls ≠ [] := by
    rw [hk]
    exact listChunks_ne_nil k urls hne
  have hlen1 : 1 ≤ (listChunks (min (max segment_size 1) 50) urls).length :=
    List.length_pos.mpr hchne
  have hsum : ((listChunks (min (max segment_size 1) 50) urls).map List.length).sum
      = urls.length := by
    rw [hk]
    exact listChunks_sum k urls
  obtain ⟨h1, h2, h3, h4⟩ := runSegments_spec (min (max segment_size 1) 50) urls.length
    output_template format output_dir outcomes pick
    (listChunks (min (max segment_size 1) 50) urls).length
    (listChunks (min (max segment_size 1) 50) urls) 0
    { total_downloaded := 0, total_failed := 0, events := []
      delays := 0, delay_secs := min (max delay MIN_DELAY_SECS) MAX_DELAY_SECS, maxInFlight := 0 }
    (by omega)
  simp only [run_job]
  refine ⟨?_, ?_, ?_, ?_, hlen1⟩
  · simp only [List.countP_nil] at h1
    rw [hsum] at h1
    simpa using h1
  · simp only [List.countP_append, List.countP_nil, countP_segFin_of_dlFin] at h2 ⊢
    omega
  · simp only [List.countP_append, List.countP_nil, countP_dlFin_of_dlFin] at h3 ⊢
    omega
  · simpa using h4

/-! ## C3 -/

/-- C3: once pre-flight passes (non-empty list within the batch ceiling,
valid format, Spotify-shaped URLs, valid output directory, successful tool
probe), the orchestrator returns `Ok` with a job outcome whose totals
satisfy `total_downloaded + total_failed = urls.length` — for **every**
assignment of per-task outcomes (including crashes and failures of every
task) and every completion scheduler, so per-task errors are only counted,
never propagated as job-level failures. -/
theorem job_never_errors_after_preflight (urls : List String) (segment_size delay : Nat)
    (output_template format : String) (output_dir : Option String)
    (pathExists : String → Bool) (probe : ProcResult)
    (outcomes : Nat → TaskOutcome) (pick : Nat → Nat)
    (hne : urls ≠ []) (hsize : urls.length ≤ MAX_SONGS_PER_BATCH)
    (hfmt : validate_download_format format = .ok ())
    (hurls : validate_all_urls urls = .ok ())
    (hdir : validate_output_dir pathExists output_dir = .ok ())
    (v : String) (hprobe : check_installed probe = .ok v) :
    ∃ acc, download_tracks_segmented urls segment_size delay output_template format output_dir
        pathExists probe outcomes pick = .ok acc
      ∧ acc.total_downloaded + acc.total_failed = urls.length :=
  ⟨run_job urls segment_size delay output_template format output_dir outcomes pick,
   download_tracks_segmented_ok urls segment_size delay output_template format output_dir
     pathExists probe outcomes pick hne hsize hfmt hurls hdir v hprobe,
   (run_job_spec urls segment_size delay output_template format output_dir outcomes pick hne).1⟩

/-- Witness for C3: two valid URLs where one task crashes and the other's
process fails; the job still returns `Ok` and the totals tally both. -/
theorem job_never_errors_after_preflight_witness :
    ∃ acc, download_tracks_segmented
        ["https://open.spotify.com/track/a", "https://open.spotify.com/track/b"]
        1 5 "t" "mp3" none (fun _ => true) (.exited true "spotdl 4.2.5" "")
        (fun i => if i = 1 then .crashed else .proc (.exited false "" "boom")) (fun _ => 0)
      = .ok acc
      ∧ acc.total_downloaded + acc.total_failed
        = (["https://open.spotify.com/track/a", "https://open.spotify.com/track/b"] : List String).length :=
  job_never_errors_after_preflight
    ["https://open.spotify.com/track/a", "https://open.spotify.com/track/b"]
    1 5 "t" "mp3" none (fun _ => true) (.exited true "spotdl 4.2.5" "")
    (fun i => if i = 1 then .crashed else .proc (.exited false "" "boom")) (fun _ => 0)
    (by decide) (by decide) (by decide) (by decide) rfl "spotdl 4.2.5" (by decide)

/-! ## C5 -/

/-- C5: once pre-flight passes, a job split into `N` segments emits exactly
`N` `download-segment-finished` events and exactly one `download-finished`
event, and invokes the inter-segment delay exactly `N - 1` times (never
after the last segment), where `N` is the number of chunks of the clamped
segment size (and `N ≥ 1`). -/
theorem job_segment_events_and_delays (urls : List String) (segment_size delay : Nat)
    (output_template format : String) (output_dir : Option String)
    (pathExists : String → Bool) (probe : ProcResult)
    (outcomes : Nat → TaskOutcome) (pick : Nat → Nat)
    (hne : urls ≠ []) (hsize : urls.length ≤ MAX_SONGS_PER_BATCH)
    (hfmt : validate_download_format format = .ok ())
    (hurls : validate_all_urls urls = .ok ())
    (hdir : validate_output_dir pathExists output_dir = .ok ())
    (v : String) (hprobe : check_installed probe = .ok v) :
    ∃ acc, download_tracks_segmented urls segment_size delay output_template format output_dir
        pathExists probe outcomes pick = .ok acc
      ∧ acc.events.countP Event.isSegmentFinished
          = (listChunks (min (max segment_size 1) 50) urls).length
      ∧ acc.events.countP Event.isDownloadFinished = 1
      ∧ acc.delays = (listChunks (min (max segment_size 1) 50) urls).length - 1
      ∧ 1 ≤ (listChunks (min (max segment_size 1) 50) urls).length := by
  obtain ⟨h1, h2, h3, h4, h5⟩ :=
    run_job_spec urls segment_size delay output_template format output_dir outcomes pick hne
  exact ⟨run_job urls segment_size delay output_template format output_dir outcomes pick,
    download_tracks_segmented_ok urls segment_size delay output_template format output_dir
      pathExists probe outcomes pick hne hsize hfmt hurls hdir v hprobe,
    h2, h3, h4, h5⟩

/-- Witness for C5 (the spec's Scenario A): 7 URLs with `segment_size = 3`
split into 3 segments; 3 `download-segment-finished` events, one
`download-finished` event and 2 delays. -/
theorem job_segment_events_and_delays_witness :
    ∃ acc, download_tracks_segmented
        ["https://open.spotify.com/track/a", "https://open.spotify.com/track/b",
         "https://open.spotify.com/track/c", "https://open.spotify.com/track/d",
         "https://open.spotify.com/track/e", "https://open.spotify.com/track/f",
         "https://open.spotify.com/track/g"]
        3 5 "t" "mp3" none (fun _ => true) (.exited true "spotdl 4.2.5" "")
        (fun _ => .proc (.exited true "done" "")) (fun _ => 0)
      = .ok acc
      ∧ acc.events.countP Event.isSegmentFinished = 3
      ∧ acc.events.countP Event.isDownloadFinished = 1
      ∧ acc.delays = 2 := by
  obtain ⟨acc, h1, h2, h3, h4, h5⟩ := job_segment_events_and_delays
    ["https://open.spotify.com/track/a", "https://open.spotify.com/track/b",
     "https://open.spotify.com/track/c", "https://open.spotify.com/track/d",
     "https://open.spotify.com/track/e", "https://open.spotify.com/track/f",
     "https://open.spotify.com/track/g"]
    3 5 "t" "mp3" none (fun _ => true) (.exited true "spotdl 4.2.5" "")
    (fun _ => .proc (.exited true "done" "")) (fun _ => 0)
    (by decide) (by decide) (by decide) (by decide) rfl "spotdl 4.2.5" (by decide)
  have hn : (listChunks (min (max 3 1) 50)
      ["https://open.spotify.com/track/a", "https://open.spotify.com/track/b",
       "https://open.spotify.com/track/c", "https://open.spotify.com/track/d",
       "https://open.spotify.com/track/e", "https://open.spotify.com/track/f",
       "https://open.spotify.com/track/g"]).length = 3 := by decide
  rw [hn] at h2 h4
  exact ⟨acc, h1, h2, h3, h4⟩

end MusicPlayer
